import Mathlib

/-!
Verification of the music-download pipeline scripts.

Strings are modelled as `List Char`.  Python `int(...)` on a string is
modelled by `pyInt` (optional surrounding whitespace, optional sign,
decimal digits with optional single underscores between digits); Python
`str.strip()` by `pyStrip`; Python `str.split(sep)` for a one-character
separator by `splitOnChar`.  Fallible operations return `Option`/`Except`.
-/

namespace MusicDownload

/-- Characters stripped by Python `str.strip()` (ASCII whitespace). -/
def isPyWs (c : Char) : Bool :=
  c == ' ' || c == '\t' || c == '\n' || c == '\r' || c == '\x0b' || c == '\x0c'

/-- Python `str.strip()`: drop leading and trailing whitespace. -/
def pyStrip (l : List Char) : List Char :=
  ((l.dropWhile isPyWs).reverse.dropWhile isPyWs).reverse

/-- Numeric value of a decimal digit character. -/
def digitVal (c : Char) : Nat := c.toNat - 48

/-- The decimal digit character for a value below ten. -/
def digitChar (d : Nat) : Char :=
  match d with
  | 0 => '0' | 1 => '1' | 2 => '2' | 3 => '3' | 4 => '4'
  | 5 => '5' | 6 => '6' | 7 => '7' | 8 => '8' | _ => '9'

/-- Value of a digit string read left to right. -/
def digitsVal (l : List Char) : Nat :=
  l.foldl (fun a c => a * 10 + digitVal c) 0

/-- Tail of Python decimal-int parsing: digits, where a single underscore
may separate two digits (`1_000` is legal, `1__0` and a trailing `_` are
not). -/
def parseDigitsGo (acc : Nat) : List Char → Option Nat
  | [] => some acc
  | c :: rest =>
    if c.isDigit then parseDigitsGo (acc * 10 + digitVal c) rest
    else if c = '_' then
      match rest with
      | [] => none
      | c2 :: rest2 =>
        if c2.isDigit then parseDigitsGo (acc * 10 + digitVal c2) rest2 else none
    else none

/-- Python decimal-digit-part parsing: at least one digit, underscores only
between digits. -/
def parseDigitsCore : List Char → Option Nat
  | [] => none
  | c :: rest => if c.isDigit then parseDigitsGo (digitVal c) rest else none

/-- Sign-and-digits stage of Python `int(s)` (applied after stripping). -/
def pyIntCore : List Char → Option Int
  | [] => none
  | c :: rest =>
    if c = '+' then (parseDigitsCore rest).map (fun n => (n : Int))
    else if c = '-' then (parseDigitsCore rest).map (fun n => -(n : Int))
    else (parseDigitsCore (c :: rest)).map (fun n => (n : Int))

/-- Python `int(s)` on a string: strip whitespace, optional sign, decimal
digit part; `none` models `ValueError`. -/
def pyInt (l : List Char) : Option Int :=
  pyIntCore (pyStrip l)

/-- Python `s.split(sep)` for a one-character separator: splits at every
occurrence and keeps empty segments; the empty string yields `[[]]`. -/
def splitOnChar (sep : Char) : List Char → List (List Char)
  | [] => [[]]
  | c :: rest =>
    match splitOnChar sep rest with
    | [] => [[]]
    | p :: ps => if c = sep then [] :: p :: ps else (c :: p) :: ps

/-- Python `sep.join(parts)` for a one-character separator. -/
def joinChar (sep : Char) : List (List Char) → List Char
  | [] => []
  | [p] => p
  | p :: ps => p ++ sep :: joinChar sep ps

/-- `duration_to_seconds` from `utils.py` / `youtube_search.py`: convert a
duration string (`M:SS` or `H:MM:SS`) to total seconds, returning 0 when
there is no colon, when there are more than three fields, or when a field
fails to parse as an integer (the caught `ValueError`). -/
def duration_to_seconds (l : List Char) : Int :=
  if ':' ∈ l then
    match splitOnChar ':' l with
    | [m, s] =>
      match pyInt m, pyInt s with
      | some m, some s => m * 60 + s
      | _, _ => 0
    | [h, m, s] =>
      match pyInt h, pyInt m, pyInt s with
      | some h, some m, some s => h * 3600 + m * 60 + s
      | _, _, _ => 0
    | _ => 0
  else 0

/-- Fuel-bounded decimal digit writer; the fuel only bounds the recursion
depth and `n + 1` always suffices because `n / 10 < n` for `n ≥ 10`. -/
def natReprAux : Nat → Nat → List Char
  | 0, _ => []
  | fuel + 1, n =>
    if n < 10 then [digitChar n]
    else natReprAux fuel (n / 10) ++ [digitChar (n % 10)]

/-- Decimal representation of a natural number, as Python `str` prints it. -/
def natRepr (n : Nat) : List Char := natReprAux (n + 1) n

/-- Decimal representation of an integer, as Python `str` prints it. -/
def intRepr (n : Int) : List Char :=
  if n < 0 then '-' :: natRepr (-n).toNat else natRepr n.toNat

/-- Python `f"{n:02d}"`: zero-pad the decimal representation to width 2. -/
def pad02 (n : Int) : List Char :=
  if (intRepr n).length < 2 then '0' :: intRepr n else intRepr n

/-- The display string `f"{d // 60}:{d % 60:02d}"` built for a found video
(Python `//` and `%` are floor division and floor modulus). -/
def fmtDuration (d : Int) : List Char :=
  intRepr (Int.fdiv d 60) ++ ':' :: pad02 (Int.fmod d 60)

/-- The `duration_str` computation in `search_youtube_track`: the display
string when the duration is truthy (nonzero), `"Unknown"` otherwise. -/
def videoDurationStr (d : Int) : List Char :=
  if d = 0 then "Unknown".toList else fmtDuration d

/-- A candidate video parsed from one JSON line of the `yt-dlp` search
output: the fields `search_youtube_track` reads via `video.get`. -/
structure Video where
  duration : Int
  title : List Char
  url : List Char
  channel : List Char
deriving DecidableEq, Repr

/-- The dictionary `search_youtube_track` returns for a chosen video. -/
structure SearchResult where
  youtube_url : List Char
  youtube_title : List Char
  youtube_duration : List Char
  youtube_channel : List Char
  duration_match : Bool
  duration_difference : Int
  search_query : List Char
deriving DecidableEq, Repr

/-- The result dictionary built from a video `v` against target seconds
`t`, with match flag `m` and search query `q`. -/
def mkResult (q : List Char) (v : Video) (t : Int) (m : Bool) : SearchResult :=
  { youtube_url := v.url
    youtube_title := v.title
    youtube_duration := videoDurationStr v.duration
    youtube_channel := v.channel
    duration_match := m
    duration_difference := |v.duration - t|
    search_query := q }

/-- The `for video in videos` loop of `search_youtube_track`: return the
first video whose absolute duration difference from the target is at most
5 seconds, as a match. -/
def searchLoop (q : List Char) (t : Int) : List Video → Option SearchResult
  | [] => none
  | v :: rest =>
    if |v.duration - t| ≤ 5 then some (mkResult q v t true)
    else searchLoop q t rest

/-- `search_youtube_track` from `utils.py` / `youtube_search.py`, after the
subprocess output has been parsed into `videos` (the search query is the
title).  Empty candidate list gives `None`; otherwise the first candidate
within 5 seconds of the target is returned as a match, and failing that the
first candidate with the match flag false. -/
def search_youtube_track (q : List Char) (videos : List Video)
    (target_duration : List Char) : Option SearchResult :=
  match videos with
  | [] => none
  | v0 :: _ =>
    let t := duration_to_seconds target_duration
    match searchLoop q t videos with
    | some r => some r
    | none => some (mkResult q v0 t false)

/-- The `Track` dataclass of `utils.py`; `None`-able fields are `Option`,
`duration_match` defaults to `False`. -/
structure Track where
  title : List Char
  artist : List Char
  duration : List Char
  source : Option (List Char) := none
  url : Option (List Char) := none
  track_number : Option Int := none
  youtube_url : Option (List Char) := none
  youtube_title : Option (List Char) := none
  youtube_duration : Option (List Char) := none
  youtube_channel : Option (List Char) := none
  duration_match : Bool := false
  duration_difference : Option Int := none
  search_query : Option (List Char) := none
deriving DecidableEq, Repr

/-- `YouTubeSearcher.search_and_update_track`, with the outcome of the
YouTube search passed in: on a result every matched field is copied from
it; on no result the matched fields are cleared except that
`duration_match` is set to `False` and `search_query` to the track title. -/
def search_and_update_track (track : Track) (youtube_result : Option SearchResult) :
    Track :=
  match youtube_result with
  | some r =>
    { track with
        youtube_url := some r.youtube_url
        youtube_title := some r.youtube_title
        youtube_duration := some r.youtube_duration
        youtube_channel := some r.youtube_channel
        duration_match := r.duration_match
        duration_difference := some r.duration_difference
        search_query := some r.search_query }
  | none =>
    { track with
        youtube_url := none
        youtube_title := none
        youtube_duration := none
        youtube_channel := none
        duration_match := false
        duration_difference := none
        search_query := some track.title }

/-- The accumulator loop of `download_youtube_to_mp3`: each URL is handed
to the downloader `dl` once; success appends the URL to the first list,
an exception appends the URL and error text to the second, and the loop
continues either way. -/
def downloadLoop (dl : List Char → Except (List Char) Unit)
    (succ : List (List Char)) (failed : List (List Char × List Char)) :
    List (List Char) → List (List Char) × List (List Char × List Char)
  | [] => (succ, failed)
  | u :: rest =>
    match dl u with
    | .ok _ => downloadLoop dl (succ ++ [u]) failed rest
    | .error e => downloadLoop dl succ (failed ++ [(u, e)]) rest

/-- `download_youtube_to_mp3` from `youtube_to_mp3.py`, with the external
downloader abstracted as `dl`: returns the pair
(`successful_downloads`, `failed_downloads`). -/
def download_youtube_to_mp3 (dl : List Char → Except (List Char) Unit)
    (urls : List (List Char)) : List (List Char) × List (List Char × List Char) :=
  downloadLoop dl [] [] urls

/-- `FileManager.get_youtube_urls_from_tracks`: the YouTube URLs of the
tracks whose `youtube_url` is truthy (present and nonempty). -/
def get_youtube_urls_from_tracks (tracks : List Track) : List (List Char) :=
  tracks.filterMap (fun t =>
    match t.youtube_url with
    | some u => if u = [] then none else some u
    | none => none)

/-- Path constant `Config.TRACKS_WITH_YOUTUBE_JSON`. -/
def tracksWithYoutubePath : List Char := "data/tracks_with_youtube.json".toList

/-- Path constant `Config.SPOTIFY_TRACKS_WITH_YOUTUBE_JSON`. -/
def spotifyTracksPath : List Char := "data/spotify_tracks_with_youtube.json".toList

/-- `load_tracks` from `utils.py`, with the file system abstracted as a map
from paths to the track lists stored there; the `ValueError` raised on an
unknown source is the `Except.error` branch. -/
def load_tracks (fs : List Char → List Track) (source : List Char) :
    Except (List Char) (List (List Char)) :=
  if source = "beatport".toList then
    .ok (get_youtube_urls_from_tracks (fs tracksWithYoutubePath))
  else if source = "spotify".toList then
    .ok (get_youtube_urls_from_tracks (fs spotifyTracksPath))
  else
    .error ("Unknown source: ".toList ++ source ++ ". Use beatport or spotify".toList)

/-- A JSON value as `json.dump`/`json.load` exchange it for a track
dictionary: null, boolean, integer, or string. -/
inductive JValue where
  | jnull
  | jbool (b : Bool)
  | jint (n : Int)
  | jstr (s : List Char)
deriving DecidableEq, Repr

/-- Encoding of an optional string field under `dataclasses.asdict`. -/
def jOfOptStr : Option (List Char) → JValue
  | none => .jnull
  | some s => .jstr s

/-- Encoding of an optional integer field under `dataclasses.asdict`. -/
def jOfOptInt : Option Int → JValue
  | none => .jnull
  | some n => .jint n

/-- `dataclasses.asdict` on a `Track`: its fields as key/value pairs in
declaration order, as serialized by `save_tracks_json`. -/
def track_asdict (t : Track) : List (List Char × JValue) :=
  [ ("title".toList, .jstr t.title)
  , ("artist".toList, .jstr t.artist)
  , ("duration".toList, .jstr t.duration)
  , ("source".toList, jOfOptStr t.source)
  , ("url".toList, jOfOptStr t.url)
  , ("track_number".toList, jOfOptInt t.track_number)
  , ("youtube_url".toList, jOfOptStr t.youtube_url)
  , ("youtube_title".toList, jOfOptStr t.youtube_title)
  , ("youtube_duration".toList, jOfOptStr t.youtube_duration)
  , ("youtube_channel".toList, jOfOptStr t.youtube_channel)
  , ("duration_match".toList, .jbool t.duration_match)
  , ("duration_difference".toList, jOfOptInt t.duration_difference)
  , ("search_query".toList, jOfOptStr t.search_query) ]

/-- First value stored under a key in a track dictionary. -/
def dLookup (k : List Char) : List (List Char × JValue) → Option JValue
  | [] => none
  | (k2, v) :: rest => if k2 = k then some v else dLookup k rest

/-- Reading a required string field. -/
def jAsStr : JValue → Option (List Char)
  | .jstr s => some s
  | _ => none

/-- Reading a nullable string field. -/
def jAsOptStr : JValue → Option (Option (List Char))
  | .jnull => some none
  | .jstr s => some (some s)
  | _ => none

/-- Reading a nullable integer field. -/
def jAsOptInt : JValue → Option (Option Int)
  | .jnull => some none
  | .jint n => some (some n)
  | _ => none

/-- Reading a boolean field. -/
def jAsBool : JValue → Option Bool
  | .jbool b => some b
  | _ => none

/-- `Track(**track)` on a loaded dictionary: build a `Track` from the
stored fields, `none` when a field is missing or of the wrong shape. -/
def track_from_dict (d : List (List Char × JValue)) : Option Track := do
  let ti ← (dLookup "title".toList d).bind jAsStr
  let ar ← (dLookup "artist".toList d).bind jAsStr
  let du ← (dLookup "duration".toList d).bind jAsStr
  let so ← (dLookup "source".toList d).bind jAsOptStr
  let ur ← (dLookup "url".toList d).bind jAsOptStr
  let tn ← (dLookup "track_number".toList d).bind jAsOptInt
  let yu ← (dLookup "youtube_url".toList d).bind jAsOptStr
  let yt ← (dLookup "youtube_title".toList d).bind jAsOptStr
  let yd ← (dLookup "youtube_duration".toList d).bind jAsOptStr
  let yc ← (dLookup "youtube_channel".toList d).bind jAsOptStr
  let dm ← (dLookup "duration_match".toList d).bind jAsBool
  let dd ← (dLookup "duration_difference".toList d).bind jAsOptInt
  let sq ← (dLookup "search_query".toList d).bind jAsOptStr
  pure { title := ti, artist := ar, duration := du, source := so, url := ur
         track_number := tn, youtube_url := yu, youtube_title := yt
         youtube_duration := yd, youtube_channel := yc, duration_match := dm
         duration_difference := dd, search_query := sq }

/-- `FileManager.save_tracks_json`: serialize the track list as a list of
dictionaries. -/
def save_tracks_json (tracks : List Track) : List (List (List Char × JValue)) :=
  tracks.map track_asdict

/-- `FileManager.load_tracks_json`: rebuild every track from its
dictionary. -/
def load_tracks_json (data : List (List (List Char × JValue))) : Option (List Track) :=
  data.mapM track_from_dict

/-- The track built from one accepted CSV data row in
`FileManager.load_spotify_csv`. -/
def spotifyRowTrack (i : Int) (parts : List (List Char)) : Track :=
  { track_number := some i
    title := parts.headI
    artist := pyStrip (joinChar ',' ((parts.drop 1).dropLast))
    duration := parts.getLastI
    source := some "spotify".toList
    search_query := none }

/-- The row loop of `FileManager.load_spotify_csv` over the data lines
(header already skipped), `i` the 1-based row counter: strip the line,
split on commas, keep rows with at least three parts, taking the first
part as title, the last as duration, and the stripped comma-join of the
middle as artist. -/
def spotifyRows (i : Int) : List (List Char) → List Track
  | [] => []
  | line :: rest =>
    let parts := splitOnChar ',' (pyStrip line)
    if 3 ≤ parts.length then spotifyRowTrack i parts :: spotifyRows (i + 1) rest
    else spotifyRows (i + 1) rest

/-- `FileManager.load_spotify_csv`, over the file's lines: skip the header
line and parse every remaining row. -/
def load_spotify_csv (lines : List (List Char)) : List Track :=
  spotifyRows 1 (lines.drop 1)

/-- A CSV data row written from a track's title, artist, and duration
fields, following the claim's words: the three fields joined by commas. -/
def csvRowOfFields (t a d : List Char) : List Char :=
  t ++ ',' :: (a ++ ',' :: d)

/-! ### Lemmas about splitting and joining -/

lemma splitOnChar_ne_nil (sep : Char) (l : List Char) : splitOnChar sep l ≠ [] := by
  induction l with
  | nil => simp [splitOnChar]
  | cons c rest ih =>
    simp only [splitOnChar]
    cases h : splitOnChar sep rest with
    | nil => simp
    | cons p ps => by_cases hc : c = sep <;> simp [hc]

lemma mem_of_splitOnChar_length (sep : Char) (l : List Char)
    (h : 2 ≤ (splitOnChar sep l).length) : sep ∈ l := by
  induction l with
  | nil => simp [splitOnChar] at h
  | cons c rest ih =>
    by_cases hc : c = sep
    · exact hc ▸ List.mem_cons_self _ _
    · refine List.mem_cons_of_mem _ (ih ?_)
      simp only [splitOnChar] at h
      cases hs : splitOnChar sep rest with
      | nil => exact absurd hs (splitOnChar_ne_nil _ _)
      | cons p ps =>
        rw [hs] at h
        simp only [hc, if_false, ite_false, List.length_cons] at h
        simp only [List.length_cons]
        omega

lemma splitOnChar_eq_single (sep : Char) (l : List Char) (h : sep ∉ l) :
    splitOnChar sep l = [l] := by
  induction l with
  | nil => rfl
  | cons c rest ih =>
    have hc : c ≠ sep := by rintro rfl; exact h (List.mem_cons_self _ _)
    have hr : sep ∉ rest := fun m => h (List.mem_cons_of_mem _ m)
    simp only [splitOnChar, ih hr]
    simp [hc]

lemma splitOnChar_append_cons (sep : Char) (t r : List Char) (h : sep ∉ t) :
    splitOnChar sep (t ++ sep :: r) = t :: splitOnChar sep r := by
  induction t with
  | nil =>
    simp only [List.nil_append, splitOnChar]
    cases hs : splitOnChar sep r with
    | nil => exact absurd hs (splitOnChar_ne_nil _ _)
    | cons p ps => simp
  | cons c t2 ih =>
    have hc : c ≠ sep := by rintro rfl; exact h (List.mem_cons_self _ _)
    have ht : sep ∉ t2 := fun m => h (List.mem_cons_of_mem _ m)
    show splitOnChar sep (c :: (t2 ++ sep :: r)) = (c :: t2) :: splitOnChar sep r
    simp only [splitOnChar]
    rw [ih ht]
    simp [hc]

lemma splitOnChar_append_last (sep : Char) (a d : List Char) (h : sep ∉ d) :
    splitOnChar sep (a ++ sep :: d) = splitOnChar sep a ++ [d] := by
  induction a with
  | nil =>
    simp only [List.nil_append, splitOnChar, splitOnChar_eq_single sep d h]
    simp
  | cons c a2 ih =>
    show splitOnChar sep (c :: (a2 ++ sep :: d)) = splitOnChar sep (c :: a2) ++ [d]
    simp only [splitOnChar]
    rw [ih]
    cases hs : splitOnChar sep a2 with
    | nil => exact absurd hs (splitOnChar_ne_nil _ _)
    | cons p ps => by_cases hc : c = sep <;> simp [hc]

lemma joinChar_splitOnChar (sep : Char) (l : List Char) :
    joinChar sep (splitOnChar sep l) = l := by
  induction l with
  | nil => rfl
  | cons c rest ih =>
    simp only [splitOnChar]
    cases hs : splitOnChar sep rest with
    | nil => exact absurd hs (splitOnChar_ne_nil _ _)
    | cons p ps =>
      rw [hs] at ih
      by_cases hc : c = sep
      · subst hc
        simp only [if_pos rfl]
        cases ps <;> simp_all [joinChar]
      · simp only [if_neg hc]
        cases ps <;> simp_all [joinChar]

/-! ### Lemmas about digit parsing and printing -/

lemma parseDigitsGo_cons (acc : Nat) (c : Char) (rest : List Char)
    (hc : c.isDigit = true) :
    parseDigitsGo acc (c :: rest) = parseDigitsGo (acc * 10 + digitVal c) rest := by
  cases rest <;> simp [parseDigitsGo, hc]

lemma parseDigitsGo_all_digits (l : List Char) :
    ∀ acc : Nat, (∀ c ∈ l, c.isDigit = true) →
      parseDigitsGo acc l = some (l.foldl (fun a c => a * 10 + digitVal c) acc) := by
  induction l with
  | nil => intro acc _; rfl
  | cons c rest ih =>
    intro acc h
    have hc := h c (List.mem_cons_self _ _)
    rw [parseDigitsGo_cons _ _ _ hc, List.foldl_cons]
    exact ih _ (fun x hx => h x (List.mem_cons_of_mem _ hx))

lemma parseDigitsCore_all_digits (l : List Char) (h1 : l ≠ [])
    (h2 : ∀ c ∈ l, c.isDigit = true) : parseDigitsCore l = some (digitsVal l) := by
  cases l with
  | nil => exact absurd rfl h1
  | cons c rest =>
    have hc := h2 c (List.mem_cons_self _ _)
    simp only [parseDigitsCore, hc, if_true]
    rw [parseDigitsGo_all_digits rest _ (fun x hx => h2 x (List.mem_cons_of_mem _ hx))]
    simp [digitsVal, List.foldl_cons]

lemma digitChar_isDigit (d : Nat) : (digitChar d).isDigit = true := by
  rcases d with _|_|_|_|_|_|_|_|_|d <;> rfl

lemma digitVal_digitChar (d : Nat) (h : d < 10) : digitVal (digitChar d) = d := by
  interval_cases d <;> rfl

lemma natRepr_ne_nil (n : Nat) : natRepr n ≠ [] := by
  unfold natRepr natReprAux
  split <;> simp

lemma natReprAux_all_digits :
    ∀ fuel n : Nat, n < fuel → ∀ c ∈ natReprAux fuel n, c.isDigit = true := by
  intro fuel
  induction fuel with
  | zero => intro n h; omega
  | succ fuel ih =>
    intro n h c hc
    simp only [natReprAux] at hc
    split at hc
    · simp only [List.mem_singleton] at hc
      subst hc
      exact digitChar_isDigit n
    · next h10 =>
      rcases List.mem_append.mp hc with hm | hm
      · exact ih (n / 10) (by omega) c hm
      · simp only [List.mem_singleton] at hm
        subst hm
        exact digitChar_isDigit (n % 10)

lemma natRepr_all_digits (n : Nat) : ∀ c ∈ natRepr n, c.isDigit = true :=
  natReprAux_all_digits (n + 1) n (by omega)

lemma digitsVal_append_singleton (a : List Char) (c : Char) :
    digitsVal (a ++ [c]) = digitsVal a * 10 + digitVal c := by
  simp [digitsVal, List.foldl_append]

lemma digitsVal_natReprAux :
    ∀ fuel n : Nat, n < fuel → digitsVal (natReprAux fuel n) = n := by
  intro fuel
  induction fuel with
  | zero => intro n h; omega
  | succ fuel ih =>
    intro n h
    simp only [natReprAux]
    split
    · next h10 =>
      have : digitsVal [digitChar n] = digitVal (digitChar n) := by
        simp [digitsVal]
      rw [this, digitVal_digitChar n h10]
    · next h10 =>
      rw [digitsVal_append_singleton, ih (n / 10) (by omega),
        digitVal_digitChar (n % 10) (by omega)]
      omega

lemma digitsVal_natRepr (n : Nat) : digitsVal (natRepr n) = n :=
  digitsVal_natReprAux (n + 1) n (by omega)

/-! ### Lemmas about whitespace stripping and integer parsing -/

lemma dropWhile_eq_self_of (p : Char → Bool) (l : List Char)
    (h : ∀ c ∈ l, p c = false) : l.dropWhile p = l := by
  cases l with
  | nil => rfl
  | cons c rest => simp [List.dropWhile_cons, h c (List.mem_cons_self _ _)]

lemma pyStrip_eq_self (l : List Char) (h : ∀ c ∈ l, isPyWs c = false) :
    pyStrip l = l := by
  have h2 : ∀ c ∈ l.reverse, isPyWs c = false := fun c hc => h c (List.mem_reverse.mp hc)
  unfold pyStrip
  rw [dropWhile_eq_self_of _ _ h, dropWhile_eq_self_of _ _ h2, List.reverse_reverse]

lemma isPyWs_eq_false_of_isDigit (c : Char) (h : c.isDigit = true) :
    isPyWs c = false := by
  by_contra hw
  rw [Bool.not_eq_false] at hw
  simp only [isPyWs, Bool.or_eq_true, beq_iff_eq] at hw
  rcases hw with ((((rfl | rfl) | rfl) | rfl) | rfl) | rfl <;> exact absurd h (by decide)

lemma ne_plus_of_isDigit (c : Char) (h : c.isDigit = true) : c ≠ '+' := by
  rintro rfl; exact absurd h (by decide)

lemma ne_minus_of_isDigit (c : Char) (h : c.isDigit = true) : c ≠ '-' := by
  rintro rfl; exact absurd h (by decide)

lemma pyInt_digits (l : List Char) (h1 : l ≠ [])
    (h2 : ∀ c ∈ l, c.isDigit = true) : pyInt l = some ((digitsVal l : Nat) : Int) := by
  have hs : pyStrip l = l :=
    pyStrip_eq_self l (fun c hc => isPyWs_eq_false_of_isDigit c (h2 c hc))
  unfold pyInt
  rw [hs]
  cases l with
  | nil => exact absurd rfl h1
  | cons c rest =>
    have hc := h2 c (List.mem_cons_self _ _)
    simp only [pyIntCore]
    rw [if_neg (ne_plus_of_isDigit c hc), if_neg (ne_minus_of_isDigit c hc),
      parseDigitsCore_all_digits _ (by simp) h2]
    rfl

lemma pyInt_natRepr (n : Nat) : pyInt (natRepr n) = some (n : Int) := by
  rw [pyInt_digits _ (natRepr_ne_nil n) (natRepr_all_digits n), digitsVal_natRepr]

lemma digitsVal_cons_zero (l : List Char) : digitsVal ('0' :: l) = digitsVal l := rfl

lemma intRepr_ofNat (k : Nat) : intRepr (Int.ofNat k) = natRepr k := by
  unfold intRepr
  split
  · next h => exact absurd h (not_lt.mpr (Int.ofNat_zero_le k))
  · rfl

lemma pad02_ofNat_all_digits (k : Nat) :
    ∀ c ∈ pad02 (Int.ofNat k), c.isDigit = true := by
  unfold pad02
  rw [intRepr_ofNat]
  intro c hc
  split at hc
  · rcases List.mem_cons.mp hc with rfl | hm
    · decide
    · exact natRepr_all_digits k c hm
  · exact natRepr_all_digits k c hc

lemma pad02_ofNat_ne_nil (k : Nat) : pad02 (Int.ofNat k) ≠ [] := by
  unfold pad02
  rw [intRepr_ofNat]
  split
  · simp
  · exact natRepr_ne_nil k

lemma pyInt_pad02_ofNat (k : Nat) : pyInt (pad02 (Int.ofNat k)) = some (k : Int) := by
  rw [pyInt_digits _ (pad02_ofNat_ne_nil k) (pad02_ofNat_all_digits k)]
  unfold pad02
  rw [intRepr_ofNat]
  split
  · rw [digitsVal_cons_zero, digitsVal_natRepr]
  · rw [digitsVal_natRepr]

lemma colon_not_mem_natRepr (n : Nat) : ':' ∉ natRepr n := fun hm =>
  absurd (natRepr_all_digits n ':' hm) (by decide)

lemma colon_not_mem_pad02_ofNat (k : Nat) : ':' ∉ pad02 (Int.ofNat k) := fun hm =>
  absurd (pad02_ofNat_all_digits k ':' hm) (by decide)

/-! ### Lemmas about the search loop -/

lemma searchLoop_eq_find (q : List Char) (t : Int) (vs : List Video) :
    searchLoop q t vs =
      (vs.find? (fun v => decide (|v.duration - t| ≤ 5))).map
        (fun v => mkResult q v t true) := by
  induction vs with
  | nil => rfl
  | cons v rest ih =>
    simp only [searchLoop]
    by_cases h : |v.duration - t| ≤ 5
    · rw [if_pos h, List.find?_cons_of_pos _ (by simpa using h)]
      rfl
    · rw [if_neg h, List.find?_cons_of_neg _ (by simpa using h), ih]

/-! ### Claims -/

/-- C1: for every candidate list returned by the search subprocess and
every target duration, `search_youtube_track` returns the first candidate
(in list order) whose absolute difference between its duration and the
target's duration in seconds is within the 5-second tolerance, and if no
candidate is within the tolerance it returns the first candidate of the
list with the match flag set to false. -/
theorem c1_search_first_within_tolerance (q td : List Char) (vs : List Video)
    (v0 : Video) (h0 : vs.head? = some v0) :
    search_youtube_track q vs td =
      some (match vs.find?
              (fun v => decide (|v.duration - duration_to_seconds td| ≤ 5)) with
            | some v => mkResult q v (duration_to_seconds td) true
            | none => mkResult q v0 (duration_to_seconds td) false) := by
  cases vs with
  | nil => simp at h0
  | cons v rest =>
    rw [List.head?_cons, Option.some.injEq] at h0
    subst h0
    simp only [search_youtube_track, searchLoop_eq_find]
    cases hf : List.find?
        (fun u => decide (|u.duration - duration_to_seconds td| ≤ 5)) (v :: rest) with
    | none => simp
    | some u => simp

/-- Witness for C1 at a concrete candidate list and target. -/
theorem c1_search_first_within_tolerance_witness :
    search_youtube_track "q".toList
        [⟨200, "a".toList, "ua".toList, "ca".toList⟩,
         ⟨181, "b".toList, "ub".toList, "cb".toList⟩] "3:00".toList =
      some (mkResult "q".toList ⟨181, "b".toList, "ub".toList, "cb".toList⟩ 180 true) := by
  have h := c1_search_first_within_tolerance "q".toList "3:00".toList
    [⟨200, "a".toList, "ua".toList, "ca".toList⟩,
     ⟨181, "b".toList, "ub".toList, "cb".toList⟩]
    ⟨200, "a".toList, "ua".toList, "ca".toList⟩ rfl
  rw [h]
  decide

/-- C4 counterexample: two candidates are within the 5-second tolerance of
the target 100 seconds (differences 5 and 0), yet the search returns the
first one (difference 5), not the one with the minimal difference. -/
theorem c4_counterexample :
    (2 ≤ (([⟨105, "a".toList, "ua".toList, "ca".toList⟩,
            ⟨100, "b".toList, "ub".toList, "cb".toList⟩] : List Video).filter
             (fun v => decide (|v.duration - 100| ≤ 5))).length) ∧
    search_youtube_track "q".toList
        [⟨105, "a".toList, "ua".toList, "ca".toList⟩,
         ⟨100, "b".toList, "ub".toList, "cb".toList⟩] "1:40".toList =
      some (mkResult "q".toList ⟨105, "a".toList, "ua".toList, "ca".toList⟩ 100 true) ∧
    |(100 : Int) - 100| < |(105 : Int) - 100| := by
  refine ⟨by decide, ?_, by decide⟩
  decide

/-- C4 (amended): for every candidate list containing at least two
candidates within the fixed 5-second tolerance of the target duration, the
duration-matching heuristic returns the first candidate in list order that
is within the tolerance — not necessarily the one with the minimal
absolute duration difference. -/
theorem c4_amended_first_within_tolerance (q td : List Char) (vs : List Video)
    (v : Video)
    (_h2 : 2 ≤ (vs.filter
        (fun u => decide (|u.duration - duration_to_seconds td| ≤ 5))).length)
    (hf : vs.find? (fun u => decide (|u.duration - duration_to_seconds td| ≤ 5)) =
        some v) :
    search_youtube_track q vs td =
      some (mkResult q v (duration_to_seconds td) true) := by
  cases vs with
  | nil => simp at hf
  | cons v0 rest =>
    simp only [search_youtube_track, searchLoop_eq_find, hf]
    rfl

/-- Witness for the amended C4 at a concrete candidate list. -/
theorem c4_amended_witness :
    search_youtube_track "q".toList
        [⟨105, "a".toList, "ua".toList, "ca".toList⟩,
         ⟨100, "b".toList, "ub".toList, "cb".toList⟩] "1:40".toList =
      some (mkResult "q".toList ⟨105, "a".toList, "ua".toList, "ca".toList⟩ 100 true) := by
  have h := c4_amended_first_within_tolerance "q".toList "1:40".toList
    [⟨105, "a".toList, "ua".toList, "ca".toList⟩,
     ⟨100, "b".toList, "ub".toList, "cb".toList⟩]
    ⟨105, "a".toList, "ua".toList, "ca".toList⟩ (by decide) (by decide)
  rw [h]
  decide

/-- C5: every non-`None` result of the search has its `duration_match`
flag true if and only if its `duration_difference` is at most 5 seconds. -/
theorem c5_match_flag_iff_within_tolerance (q td : List Char) (vs : List Video)
    (r : SearchResult) (h : search_youtube_track q vs td = some r) :
    r.duration_match = true ↔ r.duration_difference ≤ 5 := by
  cases vs with
  | nil => simp [search_youtube_track] at h
  | cons v0 rest =>
    simp only [search_youtube_track, searchLoop_eq_find] at h
    cases hf : List.find?
        (fun v => decide (|v.duration - duration_to_seconds td| ≤ 5)) (v0 :: rest) with
    | some u =>
      rw [hf] at h
      simp only [Option.map_some', Option.some.injEq] at h
      subst h
      have hu : |u.duration - duration_to_seconds td| ≤ 5 := by
        simpa using List.find?_some hf
      simp [mkResult, hu]
    | none =>
      rw [hf] at h
      simp only [Option.map_none', Option.some.injEq] at h
      subst h
      have hv : ¬ |v0.duration - duration_to_seconds td| ≤ 5 := by
        have h1 := List.find?_eq_none.mp hf v0 (List.mem_cons_self _ _)
        simpa using h1
      simp [mkResult, hv]

/-- Witness for C5 at a concrete search outcome. -/
theorem c5_match_flag_witness :
    ((mkResult "q".toList ⟨181, "b".toList, "ub".toList, "cb".toList⟩ 181
        true).duration_match = true ↔
      (mkResult "q".toList ⟨181, "b".toList, "ub".toList, "cb".toList⟩ 181
        true).duration_difference ≤ 5) :=
  c5_match_flag_iff_within_tolerance "q".toList "3:01".toList
    [⟨181, "b".toList, "ub".toList, "cb".toList⟩] _ (by decide)

/-- C2: for every well-formed duration string with two colon-separated
integer fields `m` and `s` the conversion returns `m * 60 + s`, and for
every well-formed string with three integer fields `h`, `m`, `s` it
returns `h * 3600 + m * 60 + s`. -/
theorem c2_wellformed_duration_conversion (l a b c : List Char) (hh mm ss : Int) :
    (splitOnChar ':' l = [a, b] → pyInt a = some mm → pyInt b = some ss →
      duration_to_seconds l = mm * 60 + ss) ∧
    (splitOnChar ':' l = [a, b, c] → pyInt a = some hh → pyInt b = some mm →
      pyInt c = some ss → duration_to_seconds l = hh * 3600 + mm * 60 + ss) := by
  constructor
  · intro hsp ha hb
    have hcolon : ':' ∈ l :=
      mem_of_splitOnChar_length ':' l (by rw [hsp]; norm_num)
    simp only [duration_to_seconds, if_pos hcolon, hsp, ha, hb]
  · intro hsp ha hb hc
    have hcolon : ':' ∈ l :=
      mem_of_splitOnChar_length ':' l (by rw [hsp]; norm_num)
    simp only [duration_to_seconds, if_pos hcolon, hsp, ha, hb, hc]

/-- Witness for C2 on the concrete strings `"3:45"` and `"1:02:03"`. -/
theorem c2_wellformed_duration_witness :
    duration_to_seconds "3:45".toList = 3 * 60 + 45 ∧
    duration_to_seconds "1:02:03".toList = 1 * 3600 + 2 * 60 + 3 := by
  constructor
  · exact (c2_wellformed_duration_conversion "3:45".toList "3".toList "45".toList
      [] 0 3 45).1 (by decide) (by decide) (by decide)
  · exact (c2_wellformed_duration_conversion "1:02:03".toList "1".toList "02".toList
      "03".toList 1 2 3).2 (by decide) (by decide) (by decide) (by decide)

/-- C3: the conversion returns zero (and, being a total function, cannot
raise) on every malformed input: a string with no colon, a string with
more than three colon-separated fields, and a string one of whose fields
does not parse as an integer. -/
theorem c3_malformed_duration_zero (l : List Char) :
    (':' ∉ l → duration_to_seconds l = 0) ∧
    (3 < (splitOnChar ':' l).length → duration_to_seconds l = 0) ∧
    ((∃ f ∈ splitOnChar ':' l, pyInt f = none) → duration_to_seconds l = 0) := by
  refine ⟨?_, ?_, ?_⟩
  · intro h
    simp [duration_to_seconds, h]
  · intro h
    by_cases hc : ':' ∈ l
    · simp only [duration_to_seconds, if_pos hc]
      generalize hsp : splitOnChar ':' l = ps at h
      rcases ps with _ | ⟨x, _ | ⟨y, _ | ⟨z, _ | ⟨w, r⟩⟩⟩⟩
      · rfl
      · rfl
      · simp at h
      · simp at h
      · rfl
    · simp [duration_to_seconds, hc]
  · rintro ⟨f, hf, hnone⟩
    by_cases hc : ':' ∈ l
    · simp only [duration_to_seconds, if_pos hc]
      generalize hsp : splitOnChar ':' l = ps at hf
      rcases ps with _ | ⟨x, _ | ⟨y, _ | ⟨z, _ | ⟨w, r⟩⟩⟩⟩
      · rfl
      · rfl
      · simp only [List.mem_cons, List.not_mem_nil, or_false] at hf
        rcases hf with rfl | rfl
        · cases hy : pyInt y <;> simp [hnone, hy]
        · cases hx : pyInt x <;> simp [hnone, hx]
      · simp only [List.mem_cons, List.not_mem_nil, or_false] at hf
        rcases hf with rfl | rfl | rfl
        · cases hy : pyInt y <;> cases hz : pyInt z <;> simp [hnone, hy, hz]
        · cases hx : pyInt x <;> cases hz : pyInt z <;> simp [hnone, hx, hz]
        · cases hx : pyInt x <;> cases hy : pyInt y <;> simp [hnone, hx, hy]
      · rfl
    · simp [duration_to_seconds, hc]

/-- Witness for C3 on three concrete malformed strings. -/
theorem c3_malformed_duration_witness :
    duration_to_seconds "234".toList = 0 ∧
    duration_to_seconds "1:2:3:4".toList = 0 ∧
    duration_to_seconds "a:b".toList = 0 :=
  ⟨(c3_malformed_duration_zero "234".toList).1 (by decide),
   (c3_malformed_duration_zero "1:2:3:4".toList).2.1 (by decide),
   (c3_malformed_duration_zero "a:b".toList).2.2 ⟨"a".toList, by decide, by decide⟩⟩

/-- C10: for every non-negative number of seconds `d`, the display string
built for a found video parses back to exactly `d` through
`duration_to_seconds`. -/
theorem c10_display_string_roundtrip (d : Int) (hd : 0 ≤ d) :
    duration_to_seconds (fmtDuration d) = d := by
  obtain ⟨n, rfl⟩ := Int.eq_ofNat_of_zero_le hd
  rw [← Int.ofNat_eq_coe]
  have hdiv : Int.fdiv (Int.ofNat n) 60 = Int.ofNat (n / 60) := by
    rw [Int.ofNat_eq_coe, Int.ofNat_eq_coe]
    exact_mod_cast (Int.ofNat_fdiv n 60).symm
  have hmod : Int.fmod (Int.ofNat n) 60 = Int.ofNat (n % 60) := by
    rw [Int.ofNat_eq_coe, Int.ofNat_eq_coe]
    exact_mod_cast (Int.ofNat_fmod n 60).symm
  have hfmt : fmtDuration (Int.ofNat n) =
      natRepr (n / 60) ++ ':' :: pad02 (Int.ofNat (n % 60)) := by
    rw [fmtDuration, hdiv, hmod, intRepr_ofNat]
  have hsp : splitOnChar ':' (fmtDuration (Int.ofNat n)) =
      [natRepr (n / 60), pad02 (Int.ofNat (n % 60))] := by
    rw [hfmt, splitOnChar_append_cons ':' _ _ (colon_not_mem_natRepr (n / 60)),
      splitOnChar_eq_single ':' _ (colon_not_mem_pad02_ofNat (n % 60))]
  have hcolon : ':' ∈ fmtDuration (Int.ofNat n) :=
    mem_of_splitOnChar_length ':' _ (by rw [hsp]; norm_num)
  simp only [duration_to_seconds, if_pos hcolon, hsp, pyInt_natRepr,
    pyInt_pad02_ofNat]
  rw [Int.ofNat_eq_coe]
  exact_mod_cast congrArg (fun k : Nat => (k : Int)) (by omega : n / 60 * 60 + n % 60 = n)

/-- Witness for C10 at 185 seconds (displayed as `"3:05"`). -/
theorem c10_display_string_witness : duration_to_seconds (fmtDuration 185) = 185 :=
  c10_display_string_roundtrip 185 (by decide)

/-- The claim's invariant, first half: the matched-video fields are all
present (set to a value rather than `None`); `duration_match` is a plain
boolean in the dataclass and has no absent state, so presence is stated
over the `None`-able matched fields. -/
def matchedFieldsAllPresent (t : Track) : Prop :=
  t.youtube_url.isSome = true ∧ t.youtube_title.isSome = true ∧
  t.youtube_duration.isSome = true ∧ t.youtube_channel.isSome = true ∧
  t.duration_difference.isSome = true ∧ t.search_query.isSome = true

/-- The claim's invariant, second half: the matched-video fields are all
absent (`None`). -/
def matchedFieldsAllAbsent (t : Track) : Prop :=
  t.youtube_url.isNone = true ∧ t.youtube_title.isNone = true ∧
  t.youtube_duration.isNone = true ∧ t.youtube_channel.isNone = true ∧
  t.duration_difference.isNone = true ∧ t.search_query.isNone = true

/-- C6 counterexample: when the search returns no result,
`search_and_update_track` clears the matched-video fields but still sets
`search_query` to the track title, so the produced record has
`search_query` present while `youtube_url` is absent — the matched fields
are neither all present nor all absent. -/
theorem c6_counterexample :
    ¬ (matchedFieldsAllPresent
         (search_and_update_track
           { title := "t".toList, artist := "a".toList, duration := "3:00".toList }
           none) ∨
       matchedFieldsAllAbsent
         (search_and_update_track
           { title := "t".toList, artist := "a".toList, duration := "3:00".toList }
           none)) := by
  simp only [matchedFieldsAllPresent, matchedFieldsAllAbsent]
  decide

/-- The five `None`-able matched-video fields that the update step does
keep in lockstep. -/
def coreMatchedAllPresent (t : Track) : Prop :=
  t.youtube_url.isSome = true ∧ t.youtube_title.isSome = true ∧
  t.youtube_duration.isSome = true ∧ t.youtube_channel.isSome = true ∧
  t.duration_difference.isSome = true

/-- All five `None`-able matched-video fields absent. -/
def coreMatchedAllAbsent (t : Track) : Prop :=
  t.youtube_url.isNone = true ∧ t.youtube_title.isNone = true ∧
  t.youtube_duration.isNone = true ∧ t.youtube_channel.isNone = true ∧
  t.duration_difference.isNone = true

/-- C6 (amended): every record produced by the search-and-update step has
the matched-video fields `youtube_url`, `youtube_title`,
`youtube_duration`, `youtube_channel` and `duration_difference` all
present together or all absent together, while `search_query` is always
present afterwards (the track title when the search found nothing) and
`duration_match` is a plain boolean that is never absent. -/
theorem c6_amended_matched_fields_lockstep (tr : Track) (res : Option SearchResult) :
    (coreMatchedAllPresent (search_and_update_track tr res) ∨
     coreMatchedAllAbsent (search_and_update_track tr res)) ∧
    (search_and_update_track tr res).search_query.isSome = true := by
  cases res with
  | none =>
    refine ⟨Or.inr ?_, ?_⟩ <;>
      simp [search_and_update_track, coreMatchedAllAbsent]
  | some r =>
    refine ⟨Or.inl ?_, ?_⟩ <;>
      simp [search_and_update_track, coreMatchedAllPresent]

/-- C8: the batch download hands every URL to the downloader once,
failures never abort the loop, and on completion every input URL is
accounted for in exactly one of the two accumulator lists, whose lengths
sum to the input length. -/
theorem c8_batch_download_accounting (dl : List Char → Except (List Char) Unit)
    (urls : List (List Char)) :
    (download_youtube_to_mp3 dl urls).1.length +
        (download_youtube_to_mp3 dl urls).2.length = urls.length ∧
    ∀ u : List Char,
      urls.count u =
        (download_youtube_to_mp3 dl urls).1.count u +
          ((download_youtube_to_mp3 dl urls).2.map Prod.fst).count u := by
  have key : ∀ (us : List (List Char)) (s : List (List Char))
      (f : List (List Char × List Char)),
      ((downloadLoop dl s f us).1.length + (downloadLoop dl s f us).2.length
        = s.length + f.length + us.length) ∧
      ∀ u : List Char,
        (downloadLoop dl s f us).1.count u +
            ((downloadLoop dl s f us).2.map Prod.fst).count u =
          s.count u + (f.map Prod.fst).count u + us.count u := by
    intro us
    induction us with
    | nil => intro s f; simp [downloadLoop]
    | cons v rest ih =>
      intro s f
      simp only [downloadLoop]
      cases dl v with
      | ok _ =>
        refine ⟨?_, ?_⟩
        · have h := (ih (s ++ [v]) f).1
          simp only [List.length_append, List.length_cons, List.length_nil] at h ⊢
          omega
        · intro u
          have h := (ih (s ++ [v]) f).2 u
          simp only [List.count_append, List.count_cons] at h ⊢
          by_cases hv : v = u <;> simp [hv] at h ⊢ <;> omega
      | error e =>
        refine ⟨?_, ?_⟩
        · have h := (ih s (f ++ [(v, e)])).1
          simp only [List.length_append, List.length_cons, List.length_nil] at h ⊢
          omega
        · intro u
          have h := (ih s (f ++ [(v, e)])).2 u
          simp only [List.map_append, List.count_append, List.count_cons,
            List.map_cons, List.map_nil] at h ⊢
          by_cases hv : v = u <;> simp [hv] at h ⊢ <;> omega
  refine ⟨?_, ?_⟩
  · have h := (key urls [] []).1
    simpa [download_youtube_to_mp3] using h
  · intro u
    have h := (key urls [] []).2 u
    simp only [download_youtube_to_mp3]
    simp at h
    omega

/-- C9: `load_tracks` raises exactly on a source other than `"beatport"`
and `"spotify"`, and in that case its outcome does not depend on the file
system at all (no file is read). -/
theorem c9_load_tracks_source_dispatch (fs : List Char → List Track)
    (source : List Char) :
    ((∃ e, load_tracks fs source = .error e) ↔
      (source ≠ "beatport".toList ∧ source ≠ "spotify".toList)) ∧
    (source ≠ "beatport".toList → source ≠ "spotify".toList →
      ∀ fs2 : List Char → List Track, load_tracks fs source = load_tracks fs2 source) := by
  constructor
  · constructor
    · rintro ⟨e, he⟩
      by_cases h1 : source = "beatport".toList
      · simp [load_tracks, h1] at he
      · by_cases h2 : source = "spotify".toList
        · simp [load_tracks, h1, h2] at he
        · exact ⟨h1, h2⟩
    · rintro ⟨h1, h2⟩
      exact ⟨_, by unfold load_tracks; rw [if_neg h1, if_neg h2]⟩
  · intro h1 h2 fs2
    unfold load_tracks
    rw [if_neg h1, if_neg h2, if_neg h1, if_neg h2]

/-- Witness for C9 at the concrete invalid source `"x"` and two file
systems. -/
theorem c9_load_tracks_witness :
    (∃ e, load_tracks (fun _ => []) "x".toList = .error e) ∧
    load_tracks (fun _ => []) "x".toList =
      load_tracks
        (fun _ => [{ title := "t".toList, artist := "a".toList,
                     duration := "3:00".toList,
                     youtube_url := some "u".toList }]) "x".toList :=
  ⟨(c9_load_tracks_source_dispatch (fun _ => []) "x".toList).1.mpr
      ⟨by decide, by decide⟩,
   (c9_load_tracks_source_dispatch (fun _ => []) "x".toList).2
      (by decide) (by decide) _⟩

/-! ### Lemmas for the JSON and CSV round trips -/

lemma track_from_dict_asdict (t : Track) : track_from_dict (track_asdict t) = some t := by
  obtain ⟨ti, ar, du, so, ur, tn, yu, yt, yd, yc, dm, dd, sq⟩ := t
  cases so <;> cases ur <;> cases tn <;> cases yu <;> cases yt <;> cases yd <;>
    cases yc <;> cases dd <;> cases sq <;> rfl

lemma load_save_tracks_json (ts : List Track) :
    load_tracks_json (save_tracks_json ts) = some ts := by
  induction ts with
  | nil => rfl
  | cons t rest ih =>
    simp only [save_tracks_json, load_tracks_json, List.map_cons, List.mapM_cons,
      track_from_dict_asdict]
    simp only [save_tracks_json, load_tracks_json, List.map] at ih
    rw [ih]
    rfl

/-- C7 counterexample: writing a CSV row from title `"a,b"`, artist `"c"`,
duration `"3:00"` and loading it back yields title `"a"` and artist
`"b,c"` — the comma inside the title shifts the fields, so the round trip
does not recover the written field values. -/
theorem c7_counterexample :
    (load_spotify_csv ["header".toList,
        csvRowOfFields "a,b".toList "c".toList "3:00".toList]).map
        (fun tr => (tr.title, tr.artist, tr.duration)) =
      [("a".toList, "b,c".toList, "3:00".toList)] ∧
    ("a".toList, "b,c".toList) ≠ ("a,b".toList, "c".toList) :=
  ⟨rfl, by decide⟩

/-- C7 (amended): the JSON round trip preserves every record field for
every track list; the CSV round trip recovers the written title, artist,
and duration provided the title and duration contain no comma, the
assembled line carries no strippable surrounding whitespace, and the
artist carries no surrounding whitespace (the loader strips both). -/
theorem c7_amended_roundtrips :
    (∀ ts : List Track, load_tracks_json (save_tracks_json ts) = some ts) ∧
    (∀ hdr t a d : List Char, ',' ∉ t → ',' ∉ d →
      pyStrip (csvRowOfFields t a d) = csvRowOfFields t a d → pyStrip a = a →
      load_spotify_csv [hdr, csvRowOfFields t a d] =
        [{ title := t, artist := a, duration := d,
           source := some "spotify".toList, track_number := some 1 }]) := by
  refine ⟨load_save_tracks_json, ?_⟩
  intro hdr t a d ht hd hstrip ha
  have hsp : splitOnChar ',' (csvRowOfFields t a d) =
      t :: (splitOnChar ',' a ++ [d]) := by
    unfold csvRowOfFields
    rw [splitOnChar_append_cons ',' _ _ ht, splitOnChar_append_last ',' _ _ hd]
  have hpos : 0 < (splitOnChar ',' a).length :=
    List.length_pos.mpr (splitOnChar_ne_nil ',' a)
  have hart : ((t :: (splitOnChar ',' a ++ [d])).drop 1).dropLast =
      splitOnChar ',' a := by
    simp [List.dropLast_concat]
  have hdur : (t :: (splitOnChar ',' a ++ [d])).getLastI = d := by
    rw [List.getLastI_eq_getLast?,
      show t :: (splitOnChar ',' a ++ [d]) = (t :: splitOnChar ',' a) ++ [d] by simp,
      List.getLast?_concat]
  have hrow : spotifyRowTrack 1 (t :: (splitOnChar ',' a ++ [d])) =
      { title := t, artist := a, duration := d,
        source := some "spotify".toList, track_number := some 1 } := by
    unfold spotifyRowTrack
    simp [hart, hdur, joinChar_splitOnChar, ha, List.headI]
  show spotifyRows 1 ([hdr, csvRowOfFields t a d].drop 1) = _
  simp only [List.drop_succ_cons, List.drop_zero]
  simp only [spotifyRows, hstrip, hsp]
  rw [if_pos (by simp only [List.length_cons, List.length_append]; omega), hrow]

/-- Witness for the amended C7 at a concrete track list and CSV row. -/
theorem c7_amended_roundtrips_witness :
    load_tracks_json (save_tracks_json
        [{ title := "t".toList, artist := "a".toList, duration := "3:00".toList }]) =
      some [{ title := "t".toList, artist := "a".toList, duration := "3:00".toList }] ∧
    load_spotify_csv ["header".toList,
        csvRowOfFields "ti".toList "ar".toList "3:00".toList] =
      [{ title := "ti".toList, artist := "ar".toList, duration := "3:00".toList,
         source := some "spotify".toList, track_number := some 1 }] :=
  ⟨c7_amended_roundtrips.1 _,
   c7_amended_roundtrips.2 "header".toList "ti".toList "ar".toList "3:00".toList
     (by decide) (by decide) (by decide) (by decide)⟩

end MusicDownload
